import Mathlib

/-!
Verification of the kubecraft-proxy Minecraft reverse proxy.

Shallow embedding of the Rust sources:
* `src/protocol/src/lib.rs`                      — VarInt / string codec
* `src/protocol/src/packets/handshake.rs`        — handshake packet
* `src/protocol/src/packets/clientbound/status.rs` — kick / MOTD packets
* `src/storage/src/lib.rs`                       — routing table (BTreeMap)
* `src/proxy/src/lib.rs`                         — connection handling, event loop
* `src/proxy/src/stream.rs`                      — kick paths

Byte streams are modelled as `List Nat` (each entry is one byte, reduced
mod 256 at the point where the code performs `read_u8`).  Machine
integers are modelled as `Int` / `Nat` with explicit `% 2 ^ 32` where the
Rust code works on `i32`, and shift amounts are reduced `% 32` exactly as
Rust release builds do for an `i32` shift (a debug build would panic on a
shift amount of 32 or more; the spots where that can happen are made
visible through the consumed-byte counter below).
-/

deriving instance DecidableEq for Except

namespace KubecraftProxy

/-- Errors the codec can produce.  `eof` stands for the `io::Error` that
`read_u8` / `read_exact` return at end of stream, `tooLong` for the
`anyhow!("VarInt too big!")` error, `capacityOverflow` for the panic of
`vec![0u8; n]` when `n` exceeds `isize::MAX`, and the last two for the
handshake-specific `anyhow!` errors. -/
inductive VarIntError
  | eof
  | tooLong
  | capacityOverflow
  | unexpectedPacketId (id : Int)
  | invalidNextState (n : Int)
deriving DecidableEq, Repr

/-- Reinterpret the low 32 bits held in a `Nat` as a two's-complement
signed 32-bit integer, as Rust does implicitly by accumulating into an
`i32`. -/
def toSigned (n : Nat) : Int :=
  if n < 2 ^ 31 then (n : Int) else (n : Int) - 2 ^ 32

/-- The loop body of `read_var_int` (src/protocol/src/lib.rs:15-39).
Arguments: remaining stream, `num_read`, `result` (the 32 accumulator
bits).  Returns the outcome together with the number of bytes consumed
from the stream (each loop iteration consumes exactly one byte via
`read_u8`).  The shift amount `7 * num_read` is reduced `% 32` as in a
Rust release build; note that the `num_read > 5` test happens only AFTER
the byte has been read and the shift evaluated, faithful to the source
order. -/
def readVarIntLoop : List Nat → Nat → Nat → Except VarIntError Int × Nat
  | [], numRead, _ => (Except.error VarIntError.eof, numRead)
  | b :: rest, numRead, result =>
    let read := b % 256
    let value := read &&& 127
    let result := (result ||| (value <<< (7 * numRead % 32))) % 2 ^ 32
    let numRead := numRead + 1
    if 5 < numRead then (Except.error VarIntError.tooLong, numRead)
    else if read &&& 128 = 0 then (Except.ok (toSigned result), numRead)
    else readVarIntLoop rest numRead result

/-- `read_var_int` (src/protocol/src/lib.rs:15-39) over a byte list. -/
def read_var_int (s : List Nat) : Except VarIntError Int :=
  (readVarIntLoop s 0 0).1

/-- Number of bytes `read_var_int` consumes from the stream. -/
def readVarIntConsumed (s : List Nat) : Nat :=
  (readVarIntLoop s 0 0).2

/-- The loop of `write_var_int` (src/protocol/src/lib.rs:51-68), fuelled.
The Rust loop computes `temp = value & 0x7F`, then `value >>= 7` — an
ARITHMETIC right shift on `i32`, i.e. `Int.fdiv value 128` — sets the
continuation bit if the shifted value is non-zero, writes the byte, and
stops when the shifted value is zero.  `none` means the fuel ran out,
i.e. the loop has not terminated within `fuel` iterations. -/
def writeVarIntLoop : Nat → Int → Option (List Nat)
  | 0, _ => none
  | fuel + 1, value =>
    let temp := value % 128
    let value2 := value.fdiv 128
    let byte := if value2 = 0 then temp.toNat else (temp + 128).toNat
    if value2 = 0 then some [byte]
    else Option.map (fun r => byte :: r) (writeVarIntLoop fuel value2)

/-- `write_var_int` (src/protocol/src/lib.rs:51-68): the byte sequence
written for `value`, or `none` if the loop does not finish in `fuel`
iterations. -/
def write_var_int (fuel : Nat) (value : Int) : Option (List Nat) :=
  writeVarIntLoop fuel value

/-- `read_var_int` together with the remaining stream after the consumed
bytes (the Rust reader advances the stream as it reads). -/
def readVarIntFrom (s : List Nat) : Except VarIntError (Int × List Nat) :=
  match readVarIntLoop s 0 0 with
  | (Except.error e, _) => Except.error e
  | (Except.ok v, c) => Except.ok (v, s.drop c)

/-- Rust `as usize` applied to an `i32`, on a 64-bit target: the value is
sign-extended, i.e. reduced into `[0, 2^64)`. -/
def i32AsUsize (v : Int) : Nat := (v % 2 ^ 64).toNat

/-- `isize::MAX` on a 64-bit target.  `vec![0u8; n]` panics with a
capacity overflow whenever `n` exceeds this bound. -/
def ISIZE_MAX : Nat := 2 ^ 63 - 1

/-- `read_string` (src/protocol/src/lib.rs:79-89), returning the string
bytes and the remaining stream.  The code reads a VarInt length, builds
`vec![0u8; length as usize]` (which panics on capacity overflow when the
sign-extended length exceeds `isize::MAX`, modelled as the
`capacityOverflow` error), then `read_exact`s into it.  The
`String::from_utf8_lossy` conversion is not modelled: no claim inspects
the decoded text, so the string is kept as its raw bytes. -/
def readStringFrom (s : List Nat) : Except VarIntError (List Nat × List Nat) :=
  match readVarIntFrom s with
  | Except.error e => Except.error e
  | Except.ok (len, rest) =>
    let n := i32AsUsize len
    if ISIZE_MAX < n then Except.error VarIntError.capacityOverflow
    else if rest.length < n then Except.error VarIntError.eof
    else Except.ok (rest.take n, rest.drop n)

/-- `read_string` as called on a whole stream. -/
def read_string (s : List Nat) : Except VarIntError (List Nat) :=
  Except.map Prod.fst (readStringFrom s)

/-- `read_u16` (big-endian, as tokio's `AsyncReadExt::read_u16`). -/
def readU16From : List Nat → Except VarIntError (Nat × List Nat)
  | b1 :: b2 :: rest => Except.ok ((b1 % 256) * 256 + b2 % 256, rest)
  | _ => Except.error VarIntError.eof

/-- `NextState` (src/protocol/src/packets/handshake.rs:132-137). -/
inductive NextState
  | Status
  | Login
deriving DecidableEq, Repr

/-- `NextState::from_i32` (src/protocol/src/packets/handshake.rs:148-154). -/
def NextState.from_i32 (num : Int) : Except VarIntError NextState :=
  if num = 1 then Except.ok NextState.Status
  else if num = 2 then Except.ok NextState.Login
  else Except.error (VarIntError.invalidNextState num)

/-- `NextState::to_i32` (src/protocol/src/packets/handshake.rs:161-166). -/
def NextState.to_i32 : NextState → Int
  | NextState.Status => 1
  | NextState.Login => 2

/-- The fields produced by `Handshake::read`, with the hostname kept as
its raw bytes (`from_utf8_lossy` not modelled, see `readStringFrom`). -/
structure RawHandshake where
  version : Int
  hostnameBytes : List Nat
  port : Nat
  next_state : NextState
deriving DecidableEq, Repr

/-- `Handshake::read` (src/protocol/src/packets/handshake.rs:37-64): read
the frame-size VarInt, allocate `vec![0u8; size as usize]` (capacity
overflow on a negative size, as in `readStringFrom`), `read_exact` the
frame, then parse packet id (must be 0), version, hostname, port and
next state from the frame data. -/
def handshakeRead (s : List Nat) : Except VarIntError RawHandshake :=
  match readVarIntFrom s with
  | Except.error e => Except.error e
  | Except.ok (size, rest) =>
    let n := i32AsUsize size
    if ISIZE_MAX < n then Except.error VarIntError.capacityOverflow
    else if rest.length < n then Except.error VarIntError.eof
    else
      let data := rest.take n
      match readVarIntFrom data with
      | Except.error e => Except.error e
      | Except.ok (id, d1) =>
        if id ≠ 0 then Except.error (VarIntError.unexpectedPacketId id)
        else
          match readVarIntFrom d1 with
          | Except.error e => Except.error e
          | Except.ok (version, d2) =>
            match readStringFrom d2 with
            | Except.error e => Except.error e
            | Except.ok (hostnameBytes, d3) =>
              match readU16From d3 with
              | Except.error e => Except.error e
              | Except.ok (port, d4) =>
                match readVarIntFrom d4 with
                | Except.error e => Except.error e
                | Except.ok (ns, _) =>
                  match NextState.from_i32 ns with
                  | Except.error e => Except.error e
                  | Except.ok next_state =>
                    Except.ok { version, hostnameBytes, port, next_state }

/-! ### The write side of the codec

`write_var_int` is total on the non-negative values the writers below
pass it (frame and string lengths, packet id 0); `writeVarIntNat` is the
resulting byte sequence, and `writeVarIntNat_spec` below ties it to the
fuelled `write_var_int`. -/

/-- Byte sequence `write_var_int` produces for a non-negative value. -/
def writeVarIntNat (n : Nat) : List Nat :=
  if h : n < 128 then [n]
  else (n % 128 + 128) :: writeVarIntNat (n / 128)
decreasing_by exact Nat.div_lt_self (by omega) (by norm_num)

/-- UTF-8 encoding of one character (what Rust's `str::as_bytes` exposes
byte by byte). -/
def charUtf8 (c : Char) : List Nat :=
  let n := c.toNat
  if n < 0x80 then [n]
  else if n < 0x800 then
    [0xC0 ||| (n >>> 6), 0x80 ||| (n &&& 0x3F)]
  else if n < 0x10000 then
    [0xE0 ||| (n >>> 12), 0x80 ||| ((n >>> 6) &&& 0x3F), 0x80 ||| (n &&& 0x3F)]
  else
    [0xF0 ||| (n >>> 18), 0x80 ||| ((n >>> 12) &&& 0x3F),
      0x80 ||| ((n >>> 6) &&& 0x3F), 0x80 ||| (n &&& 0x3F)]

/-- UTF-8 bytes of a string (`str::as_bytes`). -/
def utf8Bytes (s : String) : List Nat := (s.data.map charUtf8).flatten

/-- `write_string` (src/protocol/src/lib.rs:98-105): VarInt byte length,
then the UTF-8 bytes. -/
def write_string (s : String) : List Nat :=
  writeVarIntNat (utf8Bytes s).length ++ utf8Bytes s

/-! ### Status / kick packets (src/protocol/src/packets/clientbound/status.rs) -/

/-- The JSON text `Status::write_as_text` builds,
`format!("...", error)` at src/protocol/src/packets/clientbound/status.rs:50.
Note the single space after the colon, exactly as in the format string. -/
def loginKickJson (error : String) : String :=
  "\x7b\"text\": \"" ++ error ++ "\"\x7d"

/-- The JSON document `Status::write_as_motd` builds,
`format!("...", error)` at src/protocol/src/packets/clientbound/status.rs:74-89.
The Rust format string is a multi-line literal; its newlines and leading
spaces (20 or 24 per line, 16 before the closing brace) are part of the
output and are reproduced here verbatim. -/
def motdKickJson (error : String) : String :=
  "\x7b\n" ++
  "                    \"version\": \x7b\n" ++
  "                        \"name\": \"\",\n" ++
  "                        \"protocol\": -1\n" ++
  "                    \x7d,\n" ++
  "                    \"players\": \x7b\n" ++
  "                        \"max\": 0,\n" ++
  "                        \"online\": 0,\n" ++
  "                        \"sample\": []\n" ++
  "                    \x7d,\n" ++
  "                    \"description\": \x7b\n" ++
  "                        \"text\": \"" ++ error ++ "\"\n" ++
  "                    \x7d\n" ++
  "                \x7d"

/-- `Status::write_as_text` (status.rs:45-55): the bytes written to the
stream — a frame whose payload is `VarInt(0)` followed by the
length-prefixed JSON string. -/
def write_as_text (error : String) : List Nat :=
  let data := writeVarIntNat 0 ++ write_string (loginKickJson error)
  writeVarIntNat data.length ++ data

/-- `Status::write_as_motd` (status.rs:65-98): same frame shape with the
MOTD JSON document. -/
def write_as_motd (error : String) : List Nat :=
  let data := writeVarIntNat 0 ++ write_string (motdKickJson error)
  writeVarIntNat data.length ++ data

/-- `Stream::kick` (src/proxy/src/stream.rs:119-130): pick the packet
variant by the handshake's next state. -/
def streamKick (reason : String) : NextState → List Nat
  | NextState.Login => write_as_text reason
  | NextState.Status => write_as_motd reason

/-- `Stream::kick_backend_not_found` (src/proxy/src/stream.rs:107-110). -/
def kick_backend_not_found (next_state : NextState) : List Nat :=
  streamKick "Backend not found" next_state

/-! ### Routing table (src/storage/src/lib.rs)

`Storage` wraps a `BTreeMap<String, Backend>`; the map is modelled as
its entry list in ascending key order, which is exactly the iteration
order `BTreeMap` exposes.  `btreeInsert` / `btreeRemove` / `btreeGet`
are the `insert` / `remove` / `get` operations on that representation. -/

/-- `shared::models::backend::Backend`.  The `shared` crate is not among
the provided sources; the struct is mirrored from
src/proxy/src/backend.rs (identical fields) and spec §3: `hostname`,
`redirect_ip`, `redirect_port` (u16). -/
structure Backend where
  hostname : String
  redirect_ip : String
  redirect_port : Nat
deriving DecidableEq, Repr

/-- `Backend::addr` (src/proxy/src/backend.rs:63-65). -/
def Backend.addr (b : Backend) : String :=
  b.redirect_ip ++ ":" ++ toString b.redirect_port

/-- Entry list of the `BTreeMap`, in ascending key order. -/
abbrev Storage := List (String × Backend)

/-- `BTreeMap::insert` on the ordered entry list: place the new entry at
its key's position, replacing an existing entry with the same key. -/
def btreeInsert (k : String) (v : Backend) : Storage → Storage
  | [] => [(k, v)]
  | (k2, v2) :: t =>
    if k < k2 then (k, v) :: (k2, v2) :: t
    else if k = k2 then (k, v) :: t
    else (k2, v2) :: btreeInsert k v t

/-- `BTreeMap::remove` on the entry list. -/
def btreeRemove (k : String) : Storage → Storage
  | [] => []
  | (k2, v2) :: t => if k = k2 then t else (k2, v2) :: btreeRemove k t

/-- `BTreeMap::get` on the entry list. -/
def btreeGet (k : String) : Storage → Option Backend
  | [] => none
  | (k2, v2) :: t => if k = k2 then some v2 else btreeGet k t

/-- `Storage::add_backend` (src/storage/src/lib.rs:31-35):
`insert(backend.hostname().to_string(), backend)`, always `Ok(())`. -/
def add_backend (s : Storage) (b : Backend) : Storage × Except String Unit :=
  (btreeInsert b.hostname b s, Except.ok ())

/-- `Storage::remove_backend` (src/storage/src/lib.rs:46-49):
`remove(host)`, always `Ok(())` whether or not the key was present. -/
def remove_backend (s : Storage) (host : String) : Storage × Except String Unit :=
  (btreeRemove host s, Except.ok ())

/-- `Storage::get_backend` (src/storage/src/lib.rs:60-62). -/
def get_backend (s : Storage) (host : String) : Option Backend :=
  btreeGet host s

/-- `Storage::get_backends` (src/storage/src/lib.rs:69-71): the whole
map, i.e. the entry list in ascending key order. -/
def get_backends (s : Storage) : List (String × Backend) := s

/-- The `ListBackends` branch of `Proxy::handle_listener_events`
(src/proxy/src/lib.rs:251-267): map each `(key, value)` entry of
`get_backends()` to a wire `Backend` built from the VALUE's fields
(`backend.1` in the Rust tuple), preserving iteration order. -/
def list_backends (s : Storage) : List Backend :=
  (get_backends s).map fun p =>
    { hostname := p.2.hostname
      redirect_ip := p.2.redirect_ip
      redirect_port := p.2.redirect_port }

/-- Ascending strict key order — the `BTreeMap` representation
invariant. -/
def SortedKeys (s : Storage) : Prop :=
  List.Pairwise (fun p q : String × Backend => p.1 < q.1) s

/-- Every entry's key is its backend's hostname — maintained by
`add_backend`, which always inserts under `backend.hostname()`. -/
def KeysMatch (s : Storage) : Prop := ∀ p ∈ s, p.1 = p.2.hostname

instance (s : Storage) : Decidable (SortedKeys s) := by
  unfold SortedKeys; infer_instance

instance (s : Storage) : Decidable (KeysMatch s) := by
  unfold KeysMatch; infer_instance

/-! ### Connection handling (src/proxy/src/lib.rs:100-200) -/

/-- `Handshake` (src/protocol/src/packets/handshake.rs:20-25), at the
struct level used by the proxy after a successful read. -/
structure Handshake where
  version : Int
  hostname : String
  port : Nat
  next_state : NextState
deriving DecidableEq, Repr

/-- Modelled from the spec: `Handshake::set_hostname` is called at
src/proxy/src/lib.rs:167 but its definition is not among the provided
sources.  Spec §4.3: "Rewrite handshake: replace `hostname` field with
`backend_host`; leave `version`, `port`, `next_state` unchanged". -/
def set_hostname (h : Handshake) (hostname : String) : Handshake :=
  { h with hostname := hostname }

/-- What `Proxy::handle_connections` does with one parsed handshake. -/
inductive ConnectionAction
  | kick (next_state : NextState)
  | forward (addr : String) (handshake : Handshake)
deriving DecidableEq, Repr

/-- The routing decision of `Proxy::handle_connections`
(src/proxy/src/lib.rs:134-180): look the virtual host up in storage; on
a miss kick with the handshake's next state
(`kick_backend_not_found`); on a hit capture `(backend.addr(),
backend.redirect_ip())`, rewrite the handshake's hostname to the
captured `redirect_ip` and forward it to `backend.addr()`. -/
def handle_connection (storage : Storage) (h : Handshake) : ConnectionAction :=
  match get_backend storage h.hostname with
  | some backend =>
    let backend_addr := backend.addr
    let backend_host := backend.redirect_ip
    ConnectionAction.forward backend_addr (set_hostname h backend_host)
  | none => ConnectionAction.kick h.next_state

/-! ### Event loop (src/proxy/src/lib.rs:219-272)

`handle_listener_events` dequeues one event at a time from the mpsc
mailbox (FIFO) and then `tokio::spawn`s a task that takes the storage
lock and performs the mutation.  The spawned tasks are not ordered with
respect to each other, so the model keeps a `pending` pool of spawned
but not-yet-run tasks: a `recv` step moves the mailbox head into the
pool, a `run` step lets an arbitrary pooled task take the lock and
apply its mutation. -/

/-- A control-plane event (src/listener/src/event.rs), reply channels
omitted. -/
inductive CEvent
  | put (b : Backend)
  | del (b : Backend)
  | list
deriving DecidableEq, Repr

/-- The storage mutation a spawned handler performs under the lock
(src/proxy/src/lib.rs:229-268). -/
def applyEvent (s : Storage) : CEvent → Storage
  | CEvent.put b => (add_backend s b).1
  | CEvent.del b => (remove_backend s b.hostname).1
  | CEvent.list => s

/-- Scheduler state of the event loop and its spawned handler tasks. -/
structure LoopState where
  mailbox : List CEvent
  pending : List CEvent
  applied : List CEvent
  storage : Storage
deriving DecidableEq, Repr

/-- One scheduler step: either the loop dequeues the mailbox head and
spawns its handler (`recv`), or some spawned handler acquires the
storage lock and applies its mutation (`run`). -/
inductive LoopStep : LoopState → LoopState → Prop
  | recv (e : CEvent) (mb pending applied : List CEvent) (st : Storage) :
      LoopStep ⟨e :: mb, pending, applied, st⟩
        ⟨mb, pending ++ [e], applied, st⟩
  | run (p1 p2 : List CEvent) (e : CEvent) (mb applied : List CEvent) (st : Storage) :
      LoopStep ⟨mb, p1 ++ e :: p2, applied, st⟩
        ⟨mb, p1 ++ p2, applied ++ [e], applyEvent st e⟩

/-- Reachability under scheduler steps. -/
def Reaches : LoopState → LoopState → Prop :=
  Relation.ReflTransGen LoopStep

example : read_var_int [0x00] = Except.ok 0 := by decide
example : read_var_int [0xdd, 0xc7, 0x01] = Except.ok 25565 := by decide
example : read_var_int [0xff, 0xff, 0xff, 0xff, 0x0f] = Except.ok (-1) := by decide
example : write_var_int 10 25565 = some [0xdd, 0xc7, 0x01] := by decide
example : write_var_int 10 0 = some [0x00] := by decide

/-! ## Helper lemmas -/

theorem toSigned_bound (n : Nat) (h : n < 2 ^ 32) :
    -(2 ^ 31) ≤ toSigned n ∧ toSigned n < 2 ^ 31 := by
  unfold toSigned
  split <;> constructor <;> omega

theorem readVarIntLoop_ok_bound :
    ∀ (s : List Nat) (numRead result : Nat) (v : Int) (c : Nat),
      readVarIntLoop s numRead result = (Except.ok v, c) →
      -(2 ^ 31) ≤ v ∧ v < 2 ^ 31 := by
  intro s
  induction s with
  | nil =>
    intro numRead result v c h
    simp [readVarIntLoop] at h
  | cons b rest ih =>
    intro numRead result v c h
    simp only [readVarIntLoop] at h
    split at h
    · simp at h
    · split at h
      · simp only [Prod.mk.injEq, Except.ok.injEq] at h
        obtain ⟨hv, -⟩ := h
        subst hv
        exact toSigned_bound _ (Nat.mod_lt _ (by norm_num))
      · exact ih _ _ _ _ h

/-- For a non-negative value, `write_var_int`'s arithmetic shift agrees
with plain `Nat` division, so the loop terminates and produces
`writeVarIntNat`: the fuelled model and the pure byte sequence used by
the packet writers coincide. -/
theorem write_var_int_nonneg (n : Nat) :
    ∀ fuel, (writeVarIntNat n).length ≤ fuel →
      write_var_int fuel (n : Int) = some (writeVarIntNat n) := by
  induction n using Nat.strong_induction_on with
  | _ n ih =>
    intro fuel hf
    have hlen : 1 ≤ (writeVarIntNat n).length := by
      unfold writeVarIntNat; split <;> simp
    obtain ⟨fuel2, rfl⟩ : ∃ m, fuel = m + 1 := ⟨fuel - 1, by omega⟩
    have hmod : (n : Int) % 128 = ((n % 128 : Nat) : Int) := by omega
    have hdiv : (n : Int).fdiv 128 = ((n / 128 : Nat) : Int) := by
      rw [Int.fdiv_eq_ediv _ (by norm_num)]
      omega
    by_cases hsmall : n < 128
    · have hd0 : (n : Int).fdiv 128 = 0 := by
        rw [hdiv]
        exact_mod_cast Nat.div_eq_of_lt hsmall
      show writeVarIntLoop (fuel2 + 1) (n : Int) = some (writeVarIntNat n)
      simp only [writeVarIntLoop, hd0, if_true, hmod]
      unfold writeVarIntNat
      rw [dif_pos hsmall]
      simp [Nat.mod_eq_of_lt hsmall]
    · have hd0 : ((n / 128 : Nat) : Int) ≠ 0 := by
        have : n / 128 ≠ 0 := fun hc => hsmall (by omega)
        exact_mod_cast this
      have hdlt : n / 128 < n := Nat.div_lt_self (by omega) (by norm_num)
      have hrec : writeVarIntLoop fuel2 ((n / 128 : Nat) : Int)
          = some (writeVarIntNat (n / 128)) :=
        ih (n / 128) hdlt fuel2 (by
          unfold writeVarIntNat at hf
          rw [dif_neg hsmall] at hf
          simpa using hf)
      show writeVarIntLoop (fuel2 + 1) (n : Int) = some (writeVarIntNat n)
      simp only [writeVarIntLoop, hdiv, hmod]
      rw [if_neg hd0, if_neg hd0, hrec]
      have hb : (((n % 128 : Nat) : Int) + 128).toNat = n % 128 + 128 := by omega
      conv_rhs => rw [writeVarIntNat]
      rw [dif_neg hsmall]
      simp only [Option.map_some, Option.map_some', Option.some.injEq, List.cons.injEq]
      exact ⟨by omega, trivial⟩

/-! ## Claims -/

/-- C7: `read_var_int` decodes the concrete test vectors with
two's-complement reinterpretation of the accumulated 32 bits:
`FF FF FF FF 0F` → -1, `80 80 80 80 08` → -2147483648,
`DD C7 01` → 25565, `FF FF FF FF 07` → 2147483647. -/
theorem claim7_decode_vectors :
    read_var_int [0xff, 0xff, 0xff, 0xff, 0x0f] = Except.ok (-1) ∧
    read_var_int [0x80, 0x80, 0x80, 0x80, 0x08] = Except.ok (-2147483648) ∧
    read_var_int [0xdd, 0xc7, 0x01] = Except.ok 25565 ∧
    read_var_int [0xff, 0xff, 0xff, 0xff, 0x07] = Except.ok 2147483647 := by
  decide

/-- C2 (code-bug evidence): on a stream whose first five bytes all carry
the continuation bit, `read_var_int` DOES consume a sixth byte — the
`num_read > 5` check runs only after `read_u8` and the shift — and only
then returns `VarIntTooLong` (consumed count 6); when no sixth byte is
available it instead fails with the end-of-stream error of `read_u8`,
not with `VarIntTooLong`. -/
theorem claim2_sixth_byte_consumed :
    read_var_int [0xff, 0xff, 0xff, 0xff, 0xff, 0x00]
        = Except.error VarIntError.tooLong ∧
    readVarIntConsumed [0xff, 0xff, 0xff, 0xff, 0xff, 0x00] = 6 ∧
    read_var_int [0xff, 0xff, 0xff, 0xff, 0xff] = Except.error VarIntError.eof ∧
    readVarIntConsumed [0xff, 0xff, 0xff, 0xff, 0xff] = 5 := by
  decide

/-- C9 (code-bug evidence): on `FF FF FF FF FF 00` the accumulator loop
runs a sixth iteration (consumed count 6), and that iteration evaluates
`result |= value << (7 * num_read)` with raw shift amount
`7 * 5 = 35 ≥ 32` — an overflowing `i32` shift (panic in a debug build,
masked `% 32` in release).  The claimed strict bound `< 32` fails. -/
theorem claim9_shift_amount_reaches_35 :
    readVarIntConsumed [0xff, 0xff, 0xff, 0xff, 0xff, 0x00] = 6 ∧
    32 ≤ 7 * (readVarIntConsumed [0xff, 0xff, 0xff, 0xff, 0xff, 0x00] - 1) := by
  decide

/-- C1 (code-bug evidence): `write_var_int` never terminates on a
negative value.  `value >>= 7` is an ARITHMETIC right shift on `i32`
(`Int.fdiv` by 128), so a negative value stays negative forever and the
`value == 0` exit is never reached: for every fuel bound the loop fails
to finish.  The claimed total round-trip over all i32 therefore fails
for every negative input, e.g. -1. -/
theorem claim1_write_var_int_diverges (v : Int) (hv : v < 0) :
    ∀ fuel, write_var_int fuel v = none := by
  intro fuel
  induction fuel generalizing v with
  | zero => rfl
  | succ n ih =>
    have hfd : v.fdiv 128 < 0 := by
      rw [Int.fdiv_eq_ediv v (by norm_num)]
      exact Int.ediv_neg' hv (by norm_num)
    have hne : ¬ v.fdiv 128 = 0 := by omega
    show writeVarIntLoop (n + 1) v = none
    simp only [writeVarIntLoop, hne, if_false, ite_false]
    rw [show writeVarIntLoop n (v.fdiv 128) = none from ih _ hfd]
    rfl

theorem claim1_witness :
    (-1 : Int) < 0 ∧ write_var_int 6 (-1) = none :=
  ⟨by decide, claim1_write_var_int_diverges (-1) (by decide) 6⟩

set_option maxRecDepth 8000 in
/-- C3 counterexample: the rejection JSON is NOT byte-for-byte the
compact string the claim gives.  The Login kick JSON carries a space
after the colon, and the Status (MOTD) JSON is a pretty-printed
multi-line document, so both differ from the claimed compact forms. -/
theorem claim3_counterexample :
    loginKickJson "Backend not found" ≠ "\x7b\"text\":\"Backend not found\"\x7d" ∧
    motdKickJson "Backend not found" ≠
      "\x7b\"version\":\x7b\"name\":\"\",\"protocol\":-1\x7d,\"players\":\x7b\"max\":0,\"online\":0,\"sample\":[]\x7d,\"description\":\x7b\"text\":\"Backend not found\"\x7d\x7d" := by
  decide

set_option maxRecDepth 8000 in
/-- C3 (amended): rejecting a client whose virtual host has no routing
entry writes exactly one frame `VarInt(payload_len)` · `VarInt(0)` ·
`VarInt(json_len)` · `json_bytes`; for `next_state=Login` the JSON is
the Login kick text with one space after the colon, and for
`next_state=Status` it is the pretty-printed multi-line ping document
reproduced below, both with reason "Backend not found". -/
theorem claim3_kick_frames :
    kick_backend_not_found NextState.Login
        = writeVarIntNat
            (writeVarIntNat 0 ++ write_string (loginKickJson "Backend not found")).length
          ++ (writeVarIntNat 0 ++ write_string (loginKickJson "Backend not found")) ∧
    loginKickJson "Backend not found" = "\x7b\"text\": \"Backend not found\"\x7d" ∧
    kick_backend_not_found NextState.Status
        = writeVarIntNat
            (writeVarIntNat 0 ++ write_string (motdKickJson "Backend not found")).length
          ++ (writeVarIntNat 0 ++ write_string (motdKickJson "Backend not found")) ∧
    motdKickJson "Backend not found"
        = "\x7b\n                    \"version\": \x7b\n                        \"name\": \"\",\n                        \"protocol\": -1\n                    \x7d,\n                    \"players\": \x7b\n                        \"max\": 0,\n                        \"online\": 0,\n                        \"sample\": []\n                    \x7d,\n                    \"description\": \x7b\n                        \"text\": \"Backend not found\"\n                    \x7d\n                \x7d" := by
  exact ⟨rfl, rfl, rfl, rfl⟩

/-! Concrete backends and a handshake used by the witnesses below. -/

def bA : Backend :=
  { hostname := "a.example", redirect_ip := "10.0.0.1", redirect_port := 25001 }

def bB : Backend :=
  { hostname := "b.example", redirect_ip := "10.0.0.2", redirect_port := 25002 }

def bC : Backend :=
  { hostname := "c.example", redirect_ip := "10.0.0.3", redirect_port := 25003 }

def hsA : Handshake :=
  { version := 47, hostname := "a.example", port := 25565,
    next_state := NextState.Login }

/-- C5: when the client's virtual host has a routing entry, the proxy
dials the backend's `addr()` and forwards the client's handshake with
only the hostname field replaced by the backend's `redirect_ip`;
version, port and next_state are unchanged. -/
theorem claim5_handshake_rewrite (storage : Storage) (h : Handshake) (b : Backend)
    (hb : get_backend storage h.hostname = some b) :
    handle_connection storage h =
      ConnectionAction.forward b.addr
        { version := h.version, hostname := b.redirect_ip,
          port := h.port, next_state := h.next_state } := by
  unfold handle_connection
  rw [hb]
  rfl

theorem claim5_witness :
    get_backend [("a.example", bA)] hsA.hostname = some bA ∧
    handle_connection [("a.example", bA)] hsA =
      ConnectionAction.forward bA.addr
        { version := hsA.version, hostname := bA.redirect_ip,
          port := hsA.port, next_state := hsA.next_state } :=
  ⟨by decide, claim5_handshake_rewrite _ _ _ (by decide)⟩

theorem btreeRemove_absent (host : String) :
    ∀ s : Storage, (∀ p ∈ s, p.1 ≠ host) → btreeRemove host s = s := by
  intro s
  induction s with
  | nil => intro _; rfl
  | cons p t ih =>
    intro hmem
    obtain ⟨k2, v2⟩ := p
    have hk : ¬ host = k2 :=
      fun hc => hmem (k2, v2) (List.mem_cons_self _ _) hc.symm
    simp only [btreeRemove, if_neg hk]
    rw [ih fun q hq => hmem q (List.mem_cons_of_mem _ hq)]

/-- C8: deleting a hostname that has no routing entry returns success
(`Ok(())`) and leaves the routing table unchanged. -/
theorem claim8_delete_absent (s : Storage) (host : String)
    (h : ∀ p ∈ s, p.1 ≠ host) :
    remove_backend s host = (s, Except.ok ()) := by
  unfold remove_backend
  rw [btreeRemove_absent host s h]

theorem claim8_witness :
    (∀ p ∈ [("a.example", bA)], p.1 ≠ "zzz.example") ∧
    remove_backend [("a.example", bA)] "zzz.example"
      = ([("a.example", bA)], Except.ok ()) :=
  ⟨by decide, claim8_delete_absent _ _ (by decide)⟩

theorem btreeInsert_mem (k : String) (v : Backend) :
    ∀ (s : Storage) (q : String × Backend),
      q ∈ btreeInsert k v s → q ∈ s ∨ q = (k, v) := by
  intro s
  induction s with
  | nil =>
    intro q hq
    simp only [btreeInsert, List.mem_singleton] at hq
    exact Or.inr hq
  | cons p t ih =>
    intro q hq
    obtain ⟨k2, v2⟩ := p
    simp only [btreeInsert] at hq
    split at hq
    · rcases List.mem_cons.mp hq with h1 | h2
      · exact Or.inr h1
      · exact Or.inl h2
    · split at hq
      · rcases List.mem_cons.mp hq with h1 | h2
        · exact Or.inr h1
        · exact Or.inl (List.mem_cons_of_mem _ h2)
      · rcases List.mem_cons.mp hq with h1 | h2
        · exact Or.inl (h1 ▸ List.mem_cons_self _ _)
        · rcases ih q h2 with h3 | h3
          · exact Or.inl (List.mem_cons_of_mem _ h3)
          · exact Or.inr h3

theorem btreeInsert_pairwise (k : String) (v : Backend) :
    ∀ s : Storage,
      List.Pairwise (fun p q : String × Backend => p.1 < q.1) s →
      List.Pairwise (fun p q : String × Backend => p.1 < q.1) (btreeInsert k v s) := by
  intro s
  induction s with
  | nil => intro _; simp [btreeInsert]
  | cons p t ih =>
    intro hs
    obtain ⟨k2, v2⟩ := p
    rw [List.pairwise_cons] at hs
    obtain ⟨hhead, htail⟩ := hs
    by_cases h1 : k < k2
    · simp only [btreeInsert, if_pos h1]
      refine List.Pairwise.cons ?_ (List.Pairwise.cons hhead htail)
      intro q hq
      rcases List.mem_cons.mp hq with rfl | hq2
      · exact h1
      · exact lt_trans h1 (hhead q hq2)
    · by_cases h2 : k = k2
      · simp only [btreeInsert, if_neg h1, if_pos h2]
        refine List.Pairwise.cons ?_ htail
        intro q hq
        exact h2 ▸ hhead q hq
      · have h3 : k2 < k := by
          rcases lt_trichotomy k k2 with h | h | h
          · exact absurd h h1
          · exact absurd h h2
          · exact h
        simp only [btreeInsert, if_neg h1, if_neg h2]
        refine List.Pairwise.cons ?_ (ih htail)
        intro q hq
        rcases btreeInsert_mem k v t q hq with hq2 | rfl
        · exact hhead q hq2
        · exact h3

theorem btreeInsert_keysMatch (b : Backend) :
    ∀ s : Storage, (∀ p ∈ s, p.1 = p.2.hostname) →
      ∀ q ∈ btreeInsert b.hostname b s, q.1 = q.2.hostname := by
  intro s hk q hq
  rcases btreeInsert_mem b.hostname b s q hq with hq2 | rfl
  · exact hk q hq2
  · rfl

/-- A sequence of `PutBackend` mutations, applied left to right as the
event loop would apply them (each one is `Storage::add_backend`). -/
def applyPuts (s : Storage) (ops : List Backend) : Storage :=
  ops.foldl (fun st b => (add_backend st b).1) s

theorem applyPuts_sorted :
    ∀ (ops : List Backend) (s : Storage),
      List.Pairwise (fun p q : String × Backend => p.1 < q.1) s →
      (∀ p ∈ s, p.1 = p.2.hostname) →
      List.Pairwise (fun p q : String × Backend => p.1 < q.1) (applyPuts s ops) ∧
      (∀ p ∈ applyPuts s ops, p.1 = p.2.hostname) := by
  intro ops
  induction ops with
  | nil => intro s hs hk; exact ⟨hs, hk⟩
  | cons b t ih =>
    intro s hs hk
    show List.Pairwise _ (applyPuts (btreeInsert b.hostname b s) t) ∧ _
    exact ih _ (btreeInsert_pairwise _ _ _ hs) (btreeInsert_keysMatch b s hk)

/-- C6: from any well-formed routing-table state (ascending unique keys
and key = stored hostname — the `BTreeMap` invariants of `Storage`),
after any sequence of insertions in any order, the `List` operation
returns the backends in strictly ascending hostname order. -/
theorem claim6_list_sorted (s : Storage) (ops : List Backend)
    (hs : SortedKeys s) (hk : KeysMatch s) :
    List.Pairwise (fun a b : Backend => a.hostname < b.hostname)
      (list_backends (applyPuts s ops)) := by
  obtain ⟨hs2, hk2⟩ := applyPuts_sorted ops s hs hk
  unfold list_backends get_backends
  rw [List.pairwise_map]
  refine hs2.imp_of_mem ?_
  intro p q hp hq hlt
  show p.2.hostname < q.2.hostname
  rw [← hk2 p hp, ← hk2 q hq]
  exact hlt

theorem claim6_witness :
    SortedKeys ([] : Storage) ∧ KeysMatch ([] : Storage) ∧
    List.Pairwise (fun a b : Backend => a.hostname < b.hostname)
      (list_backends (applyPuts [] [bB, bC, bA])) ∧
    (list_backends (applyPuts [] [bB, bC, bA])).map Backend.hostname
      = ["a.example", "b.example", "c.example"] :=
  ⟨by decide, by decide,
    claim6_list_sorted [] [bB, bC, bA] (by decide) (by decide), by
      have h1 : ¬ (("c.example" : String) < "b.example") := by simp; decide
      have h2 : ¬ (("c.example" : String) = "b.example") := by decide
      have h3 : (("a.example" : String) < "b.example") := by simp; decide
      simp [applyPuts, add_backend, btreeInsert, list_backends, get_backends,
        bA, bB, bC, h1, h2, h3]⟩

theorem i32AsUsize_big (v : Int) (h1 : -(2 ^ 31) ≤ v) (h2 : v < 0) :
    ISIZE_MAX < i32AsUsize v := by
  unfold i32AsUsize ISIZE_MAX
  omega

/-- C10: whenever the leading length-prefix VarInt of a stream decodes
to a negative i32, both `read_string` and the frame-size read of
`Handshake::read` fail and never return a value: `length as usize`
sign-extends the negative length to at least `2^64 - 2^31 > isize::MAX`,
so `vec![0u8; length as usize]` cannot be satisfied (it dies with a
capacity overflow before `read_exact` could even be asked for the
bytes, which no finite stream could supply either). -/
theorem claim10_negative_length_errors (s : List Nat) (len : Int) (rest : List Nat)
    (hread : readVarIntFrom s = Except.ok (len, rest)) (hneg : len < 0) :
    read_string s = Except.error VarIntError.capacityOverflow ∧
    handshakeRead s = Except.error VarIntError.capacityOverflow := by
  have hbound : -(2 ^ 31) ≤ len := by
    unfold readVarIntFrom at hread
    rcases hloop : readVarIntLoop s 0 0 with ⟨r, c⟩
    rw [hloop] at hread
    cases r with
    | error e => simp at hread
    | ok v =>
      simp only [Except.ok.injEq, Prod.mk.injEq] at hread
      obtain ⟨hv, -⟩ := hread
      subst hv
      exact (readVarIntLoop_ok_bound s 0 0 v c hloop).1
  have hbig := i32AsUsize_big len hbound hneg
  constructor
  · unfold read_string readStringFrom
    rw [hread]
    simp [hbig, Except.map]
  · unfold handshakeRead
    rw [hread]
    simp [hbig]

theorem claim10_witness :
    readVarIntFrom [0xff, 0xff, 0xff, 0xff, 0x0f] = Except.ok (-1, []) ∧
    (-1 : Int) < 0 ∧
    read_string [0xff, 0xff, 0xff, 0xff, 0x0f]
      = Except.error VarIntError.capacityOverflow ∧
    handshakeRead [0xff, 0xff, 0xff, 0xff, 0x0f]
      = Except.error VarIntError.capacityOverflow :=
  ⟨by decide, by decide,
    (claim10_negative_length_errors [0xff, 0xff, 0xff, 0xff, 0x0f] (-1) []
      (by decide) (by decide)).1,
    (claim10_negative_length_errors [0xff, 0xff, 0xff, 0xff, 0x0f] (-1) []
      (by decide) (by decide)).2⟩

/-- C4 counterexample: with two events put then delete for the same
hostname enqueued in that order, the scheduler can run the two spawned
handler tasks in the opposite order — `handle_listener_events` spawns a
task per event instead of handling it in the loop — so the mutations
hit the routing table as delete-then-put: the applied order differs
from the enqueue order and the final table differs from the one serial
FIFO processing would produce. -/
theorem claim4_counterexample :
    ∃ s : LoopState,
      Reaches ⟨[CEvent.put bA, CEvent.del bA], [], [], []⟩ s ∧
      s.mailbox = [] ∧ s.pending = [] ∧
      s.applied ≠ [CEvent.put bA, CEvent.del bA] ∧
      s.storage ≠ List.foldl applyEvent [] [CEvent.put bA, CEvent.del bA] := by
  refine ⟨⟨[], [], [CEvent.del bA, CEvent.put bA],
      applyEvent (applyEvent [] (CEvent.del bA)) (CEvent.put bA)⟩,
    ?_, rfl, rfl, by decide, by decide⟩
  apply Relation.ReflTransGen.head
    (LoopStep.recv (CEvent.put bA) [CEvent.del bA] [] [] [])
  apply Relation.ReflTransGen.head
    (LoopStep.recv (CEvent.del bA) [] [CEvent.put bA] [] [])
  apply Relation.ReflTransGen.head
    (LoopStep.run [CEvent.put bA] [] (CEvent.del bA) [] [] [])
  apply Relation.ReflTransGen.head
    (LoopStep.run [] [] (CEvent.put bA) [] [CEvent.del bA]
      (applyEvent [] (CEvent.del bA)))
  exact Relation.ReflTransGen.refl

/-- C4 (amended): the loop receives mailbox events serially in FIFO
order — in every reachable state the unread mailbox is a suffix
(`drop n`) of the original queue — but because each event is handled in
its own spawned task, the mutations applied so far together with the
still-pending handlers are only a PERMUTATION of the first `n` dequeued
events; the order in which they reach the routing table is
scheduler-dependent (see the counterexample). -/
theorem claim4_fifo_dequeue (mb : List CEvent) (st : Storage) (s : LoopState)
    (h : Reaches ⟨mb, [], [], st⟩ s) :
    ∃ n, s.mailbox = List.drop n mb ∧
      (s.applied ++ s.pending).Perm (List.take n mb) := by
  induction h with
  | refl => exact ⟨0, by simp⟩
  | tail hmid hstep ih =>
    obtain ⟨n, hmb, hperm⟩ := ih
    cases hstep with
    | recv e mb2 pending applied st2 =>
      refine ⟨n + 1, ?_, ?_⟩
      · show mb2 = List.drop (n + 1) mb
        have hdd : List.drop (n + 1) mb = List.drop 1 (List.drop n mb) := by
          rw [List.drop_drop]
        rw [hdd, ← hmb]
        rfl
      · have ht : List.take (n + 1) mb = List.take n mb ++ [e] := by
          rw [List.take_add, ← hmb]
          rfl
        show (applied ++ (pending ++ [e])).Perm (List.take (n + 1) mb)
        rw [ht, ← List.append_assoc]
        exact hperm.append (List.Perm.refl [e])
    | run p1 p2 e mb2 applied st2 =>
      refine ⟨n, hmb, ?_⟩
      show ((applied ++ [e]) ++ (p1 ++ p2)).Perm (List.take n mb)
      refine List.Perm.trans ?_ hperm
      rw [List.append_assoc]
      refine List.Perm.append_left applied ?_
      show (e :: (p1 ++ p2)).Perm (p1 ++ e :: p2)
      exact List.perm_middle.symm

theorem claim4_witness :
    ∃ n, (LoopState.mk [CEvent.put bA] [] [] []).mailbox
        = List.drop n [CEvent.put bA] ∧
      ((LoopState.mk [CEvent.put bA] [] [] []).applied
          ++ (LoopState.mk [CEvent.put bA] [] [] []).pending).Perm
        (List.take n [CEvent.put bA]) :=
  claim4_fifo_dequeue [CEvent.put bA] [] _ Relation.ReflTransGen.refl

end KubecraftProxy
